import Mathlib

/-!
Shallow embedding of the two batch image tools of this repository:
`src/main.py` (`ImageCompressor`) and `src/convert.py` (`ImageToPNGConverter`).

Filenames are modelled as `List Char`.  `pySuffix` / `pyStem` model Python's
`pathlib.PurePath.suffix` / `.stem` on a bare filename (no directory
separators, as produced by `os.listdir`).  Images are modelled by their mode
string and pixel dimensions; the external codec's pixel work is out of scope,
but the mode-normalization decisions, the paste/mask arguments, the size
arithmetic and the control flow of both tools are embedded faithfully.
Per-file I/O outcomes (input size, decode result, save result, output size)
are supplied as an explicit environment, and Python exceptions are modelled
by `Option`/branching, caught at the per-file `try` boundary exactly as in
the source.
-/

namespace ImageTools

/-- Index of the last occurrence of a dot in a filename, as
`name.rfind` computes it inside `pathlib`'s `suffix`/`stem`. -/
def lastDotIdx : List Char → Option Nat
  | [] => none
  | c :: cs =>
    match lastDotIdx cs with
    | some i => some (i + 1)
    | none => if c = '.' then some 0 else none

/-- Python `PurePath(name).suffix`: the part of the name from its last dot,
provided that dot is neither leading nor trailing; otherwise empty. -/
def pySuffix (s : List Char) : List Char :=
  match lastDotIdx s with
  | some i => if 0 < i ∧ i < s.length - 1 then s.drop i else []
  | none => []

/-- Python `PurePath(name).stem`: the name with `pySuffix` removed. -/
def pyStem (s : List Char) : List Char :=
  match lastDotIdx s with
  | some i => if 0 < i ∧ i < s.length - 1 then s.take i else s
  | none => s

/-- Python `str.lower` restricted to the ASCII range, applied charwise. -/
def lowerStr (s : List Char) : List Char := s.map Char.toLower

/-- `ImageCompressor.supported_formats` from `src/main.py`. -/
def compressorFormats : List (List Char) :=
  [".jpg".data, ".jpeg".data, ".png".data, ".bmp".data, ".tiff".data, ".webp".data]

/-- `ImageToPNGConverter.supported_formats` from `src/convert.py`. -/
def converterFormats : List (List Char) :=
  [".jpg".data, ".jpeg".data, ".bmp".data, ".tiff".data, ".tif".data,
   ".webp".data, ".gif".data, ".ico".data, ".png".data]

/-- The compressor's match test: `Path(file).suffix.lower() in supported_formats`. -/
def matchesCompressor (name : List Char) : Bool :=
  compressorFormats.contains (lowerStr (pySuffix name))

/-- The converter's match test: `Path(file).suffix.lower() in supported_formats`. -/
def matchesConverter (name : List Char) : Bool :=
  converterFormats.contains (lowerStr (pySuffix name))

/-- A PIL image as the tools observe it: mode string and pixel dimensions. -/
structure PILImage where
  mode : String
  width : Nat
  height : Nat
deriving DecidableEq

/-- The `mask=` argument passed to `Image.paste` in `compress_image`:
either `None` or `img.split()[-1]` (the last channel of the pasted image). -/
inductive MaskArg
  | noMask
  | lastChannel
deriving DecidableEq

/-- Record of the `background.paste(...)` call performed by `compress_image`
when flattening: the freshly created background and the mask argument. -/
structure PasteOp where
  bgMode : String
  bgWidth : Nat
  bgHeight : Nat
  bgColor : Nat × Nat × Nat
  mask : MaskArg
deriving DecidableEq

/-- The mode-normalization block of `ImageCompressor.compress_image`
(`src/main.py` lines 72-79): for modes `RGBA`, `LA`, `P` a white `RGB`
background of the image's size is created, a `P` image is first converted to
`RGBA`, and the image is pasted onto the background with mask
`img.split()[-1] if img.mode == 'RGBA' else None`; the background becomes
the working image.  Returns the resulting image and the paste call, if any. -/
def compressNormalize (img : PILImage) : PILImage × Option PasteOp :=
  if img.mode = "RGBA" ∨ img.mode = "LA" ∨ img.mode = "P" then
    let background : PILImage := ⟨"RGB", img.width, img.height⟩
    let img2 : PILImage := if img.mode = "P" then { img with mode := "RGBA" } else img
    let m : MaskArg := if img2.mode = "RGBA" then MaskArg.lastChannel else MaskArg.noMask
    (background, some ⟨"RGB", img.width, img.height, (255, 255, 255), m⟩)
  else
    (img, none)

/-- The mode-normalization block of `ImageToPNGConverter.convert_to_png`
(`src/convert.py` lines 77-84): `P` is converted to `RGBA`; `RGB`, `L`, `1`
are converted to `RGBA`; every other mode is passed through unchanged. -/
def convertNormalize (img : PILImage) : PILImage :=
  if img.mode = "P" then { img with mode := "RGBA" }
  else if img.mode = "RGB" ∨ img.mode = "L" ∨ img.mode = "1" then
    { img with mode := "RGBA" }
  else img

/-- The Python exceptions the per-file code can raise, by raising site. -/
inductive PyErr
  | statInputError
  | decodeError
  | saveError
  | statOutputError
  | zeroDivisionError
deriving DecidableEq

/-- A logged record that carries data a claim is about.  `info` stands for
the remaining purely textual INFO lines. -/
inductive LogEvent
  | info
  | reductionPct (q : ℚ)
  | sizeIncreasePct (q : ℚ)
  | sizeDecreasePct (q : ℚ)
  | warningNoImages
  | errorFile (e : PyErr)
deriving DecidableEq

/-- Per-file I/O environment: what the filesystem and the codec do for one
input file.  `none` models the corresponding call raising an exception;
`saveOk = true` means `img.save` wrote the destination file. -/
structure FileEnv where
  inputSizeBytes : Option Nat
  decoded : Option PILImage
  saveOk : Bool
  outputSizeBytes : Option Nat
deriving DecidableEq

/-- Outcome of one per-file call: the returned boolean, whether the
destination file was written (and left) on disk, and the logged records. -/
structure FileOutcome where
  ok : Bool
  written : Bool
  logs : List LogEvent
deriving DecidableEq

/-- `get_file_size`: bytes divided by 1024*1024, as an exact rational. -/
def mbOf (bytes : Nat) : ℚ := (bytes : ℚ) / 1048576

/-- `ImageCompressor.compress_image` (`src/main.py` lines 54-108).  The body
runs inside one `try`; any raising step falls to the `except` clause, which
logs the error and returns `False`.  Steps in source order: stat the input,
open/decode, normalize the mode, save as JPEG, stat the output, compute
`reduction = ((original - compressed) / original) * 100` (a zero-byte
original raises `ZeroDivisionError` here, after the save), log it, return
`True`. -/
def compress_image (env : FileEnv) : FileOutcome :=
  match env.inputSizeBytes with
  | none => ⟨false, false, [LogEvent.errorFile PyErr.statInputError]⟩
  | some b =>
    match env.decoded with
    | none => ⟨false, false, [LogEvent.errorFile PyErr.decodeError]⟩
    | some img =>
      let _imgN := (compressNormalize img).1
      if env.saveOk then
        match env.outputSizeBytes with
        | none => ⟨false, true, [LogEvent.errorFile PyErr.statOutputError]⟩
        | some n =>
          let original := mbOf b
          let compressed := mbOf n
          if b = 0 then
            ⟨false, true, [LogEvent.errorFile PyErr.zeroDivisionError]⟩
          else
            ⟨true, true,
              [LogEvent.info,
               LogEvent.reductionPct ((original - compressed) / original * 100)]⟩
      else
        ⟨false, false, [LogEvent.errorFile PyErr.saveError]⟩

/-- `ImageToPNGConverter.convert_to_png` (`src/convert.py` lines 51-112).
Same `try`-boundary shape; after a successful save it computes
`size_change = converted - original` and logs
`(size_change / original) * 100` when `size_change > 0`, otherwise
`(abs(size_change) / original) * 100` — either division raises
`ZeroDivisionError` on a zero-byte original, after the save. -/
def convert_to_png (env : FileEnv) : FileOutcome :=
  match env.inputSizeBytes with
  | none => ⟨false, false, [LogEvent.errorFile PyErr.statInputError]⟩
  | some b =>
    match env.decoded with
    | none => ⟨false, false, [LogEvent.errorFile PyErr.decodeError]⟩
    | some img =>
      let _imgN := convertNormalize img
      if env.saveOk then
        match env.outputSizeBytes with
        | none => ⟨false, true, [LogEvent.errorFile PyErr.statOutputError]⟩
        | some n =>
          let original := mbOf b
          let converted := mbOf n
          let sizeChange := converted - original
          if b = 0 then
            ⟨false, true, [LogEvent.errorFile PyErr.zeroDivisionError]⟩
          else if 0 < sizeChange then
            ⟨true, true, [LogEvent.info, LogEvent.sizeIncreasePct (sizeChange / original * 100)]⟩
          else
            ⟨true, true, [LogEvent.info, LogEvent.sizeDecreasePct (|sizeChange| / original * 100)]⟩
      else
        ⟨false, false, [LogEvent.errorFile PyErr.saveError]⟩

/-- The inline `try` block of `convert_all` for files already in PNG format
(`src/convert.py` lines 155-175): stat, open, re-save with the same PNG
parameters, stat the output; no division is performed. -/
def handle_png (env : FileEnv) : FileOutcome :=
  match env.inputSizeBytes with
  | none => ⟨false, false, [LogEvent.errorFile PyErr.statInputError]⟩
  | some _ =>
    match env.decoded with
    | none => ⟨false, false, [LogEvent.errorFile PyErr.decodeError]⟩
    | some _ =>
      if env.saveOk then
        match env.outputSizeBytes with
        | none => ⟨false, true, [LogEvent.errorFile PyErr.statOutputError]⟩
        | some _ => ⟨true, true, [LogEvent.info]⟩
      else
        ⟨false, false, [LogEvent.errorFile PyErr.saveError]⟩

/-- Destination filename of the compressor: `Path(filename).stem + '.jpg'`. -/
def compressorDestName (f : List Char) : List Char := pyStem f ++ ".jpg".data

/-- Destination filename of the converter: the unchanged filename for files
whose (lowercased) suffix is `.png`, else `Path(filename).stem + '.png'`. -/
def converterDestName (f : List Char) : List Char :=
  if lowerStr (pySuffix f) = ".png".data then f else pyStem f ++ ".png".data

/-- State accumulated by a batch run. -/
structure BatchResult where
  successful : Nat
  failed : Nat
  skipped : Nat
  written : List (List Char)
  processedInputs : List (List Char)
  warned : Bool
  summaryEmitted : Bool
deriving DecidableEq

/-- One iteration of the compressor's batch loop (`src/main.py` 133-142). -/
def compressStep (envOf : List Char → FileEnv) (acc : BatchResult) (f : List Char) :
    BatchResult :=
  let out := compress_image (envOf f)
  { acc with
    successful := acc.successful + (if out.ok then 1 else 0)
    failed := acc.failed + (if out.ok then 0 else 1)
    written := acc.written ++ (if out.written then [compressorDestName f] else [])
    processedInputs := acc.processedInputs ++ [f] }

/-- `ImageCompressor.compress_all` (`src/main.py` lines 110-148): filter the
listing by extension, warn and return when nothing matched, otherwise run
`compress_image` per file, counting successes and failures, and emit the
final summary. -/
def compress_all (listing : List (List Char)) (envOf : List Char → FileEnv) :
    BatchResult :=
  if (listing.filter matchesCompressor).isEmpty then
    ⟨0, 0, 0, [], [], true, false⟩
  else
    { (listing.filter matchesCompressor).foldl (compressStep envOf)
        ⟨0, 0, 0, [], [], false, false⟩ with
      summaryEmitted := true }

/-- The converter's partition of matched files whose lowercased suffix is
exactly `.png` (`src/convert.py` lines 126-132). -/
def pngFilesOf (listing : List (List Char)) : List (List Char) :=
  listing.filter fun f =>
    matchesConverter f && decide (lowerStr (pySuffix f) = ".png".data)

/-- The converter's partition of matched files that need conversion. -/
def imageFilesOf (listing : List (List Char)) : List (List Char) :=
  listing.filter fun f =>
    matchesConverter f && !decide (lowerStr (pySuffix f) = ".png".data)

/-- One iteration of the converter's PNG re-optimization loop
(`src/convert.py` 151-175): the destination keeps the filename; a success
increments `skipped`, an exception increments `failed`. -/
def convertPngStep (envOf : List Char → FileEnv) (acc : BatchResult) (f : List Char) :
    BatchResult :=
  let out := handle_png (envOf f)
  { acc with
    skipped := acc.skipped + (if out.ok then 1 else 0)
    failed := acc.failed + (if out.ok then 0 else 1)
    written := acc.written ++ (if out.written then [f] else [])
    processedInputs := acc.processedInputs ++ [f] }

/-- One iteration of the converter's conversion loop (`src/convert.py`
180-189): destination is `stem + '.png'`; the boolean result of
`convert_to_png` picks the counter. -/
def convertImgStep (envOf : List Char → FileEnv) (acc : BatchResult) (f : List Char) :
    BatchResult :=
  let out := convert_to_png (envOf f)
  { acc with
    successful := acc.successful + (if out.ok then 1 else 0)
    failed := acc.failed + (if out.ok then 0 else 1)
    written := acc.written ++ (if out.written then [pyStem f ++ ".png".data] else [])
    processedInputs := acc.processedInputs ++ [f] }

/-- `ImageToPNGConverter.convert_all` (`src/convert.py` lines 114-197):
partition matched files into already-PNG and to-convert, warn and return
when the total is zero, otherwise process the PNG group first, then the
conversion group, and emit the final summary. -/
def convert_all (listing : List (List Char)) (envOf : List Char → FileEnv) :
    BatchResult :=
  if (imageFilesOf listing).length + (pngFilesOf listing).length = 0 then
    ⟨0, 0, 0, [], [], true, false⟩
  else
    { (imageFilesOf listing).foldl (convertImgStep envOf)
        ((pngFilesOf listing).foldl (convertPngStep envOf)
          ⟨0, 0, 0, [], [], false, false⟩) with
      summaryEmitted := true }

/-- The percentage figure a per-file log contains, when one does. -/
def loggedPct (out : FileOutcome) : Option ℚ :=
  out.logs.foldr
    (fun e acc =>
      match e with
      | LogEvent.reductionPct q => some q
      | LogEvent.sizeIncreasePct q => some q
      | LogEvent.sizeDecreasePct q => some q
      | _ => acc)
    none

/-! ### Helper lemmas -/

theorem length_filter_add_not {α : Type} (p : α → Bool) (l : List α) :
    (l.filter p).length + (l.filter fun a => !(p a)).length = l.length := by
  induction l with
  | nil => simp
  | cons a l ih =>
    by_cases h : p a = true <;> simp [List.filter_cons, h] <;> omega

theorem compress_foldl_spec (envOf : List Char → FileEnv) (fs : List (List Char))
    (acc : BatchResult) :
    fs.foldl (compressStep envOf) acc =
      { successful := acc.successful +
          (fs.filter fun f => (compress_image (envOf f)).ok).length
        failed := acc.failed +
          (fs.filter fun f => !(compress_image (envOf f)).ok).length
        skipped := acc.skipped
        written := acc.written ++
          (fs.filter fun f => (compress_image (envOf f)).written).map compressorDestName
        processedInputs := acc.processedInputs ++ fs
        warned := acc.warned
        summaryEmitted := acc.summaryEmitted } := by
  induction fs generalizing acc with
  | nil => simp
  | cons f fs ih =>
    rw [List.foldl_cons, ih]
    simp only [compressStep, List.filter_cons]
    by_cases hok : (compress_image (envOf f)).ok = true <;>
      by_cases hw : (compress_image (envOf f)).written = true <;>
        simp [hok, hw] <;> omega

theorem convertPng_foldl_spec (envOf : List Char → FileEnv) (fs : List (List Char))
    (acc : BatchResult) :
    fs.foldl (convertPngStep envOf) acc =
      { successful := acc.successful
        failed := acc.failed + (fs.filter fun f => !(handle_png (envOf f)).ok).length
        skipped := acc.skipped + (fs.filter fun f => (handle_png (envOf f)).ok).length
        written := acc.written ++ (fs.filter fun f => (handle_png (envOf f)).written)
        processedInputs := acc.processedInputs ++ fs
        warned := acc.warned
        summaryEmitted := acc.summaryEmitted } := by
  induction fs generalizing acc with
  | nil => simp
  | cons f fs ih =>
    rw [List.foldl_cons, ih]
    simp only [convertPngStep, List.filter_cons]
    by_cases hok : (handle_png (envOf f)).ok = true <;>
      by_cases hw : (handle_png (envOf f)).written = true <;>
        simp [hok, hw] <;> omega

theorem convertImg_foldl_spec (envOf : List Char → FileEnv) (fs : List (List Char))
    (acc : BatchResult) :
    fs.foldl (convertImgStep envOf) acc =
      { successful := acc.successful +
          (fs.filter fun f => (convert_to_png (envOf f)).ok).length
        failed := acc.failed + (fs.filter fun f => !(convert_to_png (envOf f)).ok).length
        skipped := acc.skipped
        written := acc.written ++
          (fs.filter fun f => (convert_to_png (envOf f)).written).map
            (fun f => pyStem f ++ ".png".data)
        processedInputs := acc.processedInputs ++ fs
        warned := acc.warned
        summaryEmitted := acc.summaryEmitted } := by
  induction fs generalizing acc with
  | nil => simp
  | cons f fs ih =>
    rw [List.foldl_cons, ih]
    simp only [convertImgStep, List.filter_cons]
    by_cases hok : (convert_to_png (envOf f)).ok = true <;>
      by_cases hw : (convert_to_png (envOf f)).written = true <;>
        simp [hok, hw] <;> omega

theorem png_image_partition (listing : List (List Char)) :
    (pngFilesOf listing).length + (imageFilesOf listing).length =
      (listing.filter matchesConverter).length := by
  induction listing with
  | nil => simp [pngFilesOf, imageFilesOf]
  | cons f l ih =>
    by_cases hm : matchesConverter f = true
    · by_cases hp : lowerStr (pySuffix f) = ".png".data <;>
        simp [pngFilesOf, imageFilesOf, List.filter_cons, hm, hp] at ih ⊢ <;> omega
    · simp [pngFilesOf, imageFilesOf, List.filter_cons, hm] at ih ⊢
      omega

theorem filter_and_eq_nil {α : Type} {p q : α → Bool} {l : List α}
    (h : l.filter p = []) : (l.filter fun a => p a && q a) = [] := by
  induction l with
  | nil => rfl
  | cons a l ih =>
    rw [List.filter_cons] at h ⊢
    by_cases hp : p a = true
    · rw [if_pos hp] at h
      simp at h
    · have hp2 : p a = false := by simpa using hp
      rw [if_neg (by simp [hp2])] at h
      rw [if_neg (by simp [hp2])]
      exact ih h

theorem compress_all_spec (listing : List (List Char)) (envOf : List Char → FileEnv)
    (h : listing.filter matchesCompressor ≠ []) :
    compress_all listing envOf =
      { successful :=
          ((listing.filter matchesCompressor).filter
            fun f => (compress_image (envOf f)).ok).length
        failed :=
          ((listing.filter matchesCompressor).filter
            fun f => !(compress_image (envOf f)).ok).length
        skipped := 0
        written :=
          ((listing.filter matchesCompressor).filter
            fun f => (compress_image (envOf f)).written).map compressorDestName
        processedInputs := listing.filter matchesCompressor
        warned := false
        summaryEmitted := true } := by
  unfold compress_all
  rw [if_neg (by simpa [List.isEmpty_iff] using h), compress_foldl_spec]
  simp

theorem convert_all_spec (listing : List (List Char)) (envOf : List Char → FileEnv)
    (h : (imageFilesOf listing).length + (pngFilesOf listing).length ≠ 0) :
    convert_all listing envOf =
      { successful :=
          ((imageFilesOf listing).filter fun f => (convert_to_png (envOf f)).ok).length
        failed :=
          ((pngFilesOf listing).filter fun f => !(handle_png (envOf f)).ok).length +
            ((imageFilesOf listing).filter fun f => !(convert_to_png (envOf f)).ok).length
        skipped :=
          ((pngFilesOf listing).filter fun f => (handle_png (envOf f)).ok).length
        written :=
          ((pngFilesOf listing).filter fun f => (handle_png (envOf f)).written) ++
            ((imageFilesOf listing).filter fun f => (convert_to_png (envOf f)).written).map
              (fun f => pyStem f ++ ".png".data)
        processedInputs := pngFilesOf listing ++ imageFilesOf listing
        warned := false
        summaryEmitted := true } := by
  unfold convert_all
  rw [if_neg h, convertImg_foldl_spec, convertPng_foldl_spec]
  simp

theorem lastDotIdx_getElem (s : List Char) (i : Nat) (h : lastDotIdx s = some i) :
    s[i]? = some '.' := by
  induction s generalizing i with
  | nil => simp [lastDotIdx] at h
  | cons c cs ih =>
    unfold lastDotIdx at h
    cases hld : lastDotIdx cs with
    | some j =>
      rw [hld] at h
      simp only [Option.some_inj] at h
      subst h
      simpa using ih j hld
    | none =>
      rw [hld] at h
      by_cases hc : c = '.'
      · rw [if_pos hc] at h
        simp only [Option.some_inj] at h
        subst h
        simp [hc]
      · rw [if_neg hc] at h
        exact absurd h (by simp)

theorem pySuffix_eq_nil_of_leading (name : List Char)
    (h : ∀ c ∈ name.drop 1, c ≠ '.') : pySuffix name = [] := by
  unfold pySuffix
  cases hld : lastDotIdx name with
  | none => rfl
  | some i =>
    show (if 0 < i ∧ i < name.length - 1 then name.drop i else []) = []
    rw [if_neg]
    intro hc
    obtain ⟨h1, _⟩ := hc
    have hdot : name[i]? = some '.' := lastDotIdx_getElem name i hld
    have hmem : '.' ∈ name.drop 1 := by
      have hgd : (name.drop 1)[i - 1]? = some '.' := by
        rw [List.getElem?_drop]
        have h11 : 1 + (i - 1) = i := by omega
        rw [h11]
        exact hdot
      obtain ⟨hlt, heq⟩ := List.getElem?_eq_some.mp hgd
      exact heq ▸ List.getElem_mem _
    exact h '.' hmem rfl

theorem pyStem_append_pySuffix (s : List Char) (h : pySuffix s ≠ []) :
    pyStem s ++ pySuffix s = s := by
  unfold pySuffix at h
  unfold pyStem pySuffix
  cases hld : lastDotIdx s with
  | none => rw [hld] at h; simp at h
  | some i =>
    rw [hld] at h
    have h2 : ¬(if 0 < i ∧ i < s.length - 1 then s.drop i else []) = [] := h
    show (if 0 < i ∧ i < s.length - 1 then s.take i else s) ++
        (if 0 < i ∧ i < s.length - 1 then s.drop i else []) = s
    by_cases hc : 0 < i ∧ i < s.length - 1
    · rw [if_pos hc, if_pos hc]
      exact List.take_append_drop i s
    · rw [if_neg hc] at h2
      exact absurd rfl h2

theorem pySuffix_length_of_lower {s t : List Char} (h : lowerStr (pySuffix s) = t) :
    (pySuffix s).length = t.length := by
  rw [← h]
  simp [lowerStr]

theorem pngFilesOf_sub {f : List Char} {listing : List (List Char)}
    (hf : f ∈ pngFilesOf listing) :
    f ∈ listing.filter matchesConverter ∧ lowerStr (pySuffix f) = ".png".data := by
  unfold pngFilesOf at hf
  rw [List.mem_filter] at hf
  obtain ⟨hl, hcond⟩ := hf
  simp only [Bool.and_eq_true, decide_eq_true_eq] at hcond
  exact ⟨List.mem_filter.mpr ⟨hl, hcond.1⟩, hcond.2⟩

theorem imageFilesOf_sub {f : List Char} {listing : List (List Char)}
    (hf : f ∈ imageFilesOf listing) :
    f ∈ listing.filter matchesConverter ∧ lowerStr (pySuffix f) ≠ ".png".data := by
  unfold imageFilesOf at hf
  rw [List.mem_filter] at hf
  obtain ⟨hl, hcond⟩ := hf
  simp only [Bool.and_eq_true, Bool.not_eq_true', decide_eq_false_iff_not] at hcond
  exact ⟨List.mem_filter.mpr ⟨hl, hcond.1⟩, hcond.2⟩

theorem compress_all_written (listing : List (List Char)) (envOf : List Char → FileEnv) :
    ∀ w ∈ (compress_all listing envOf).written,
      ∃ s, s ∈ listing.filter matchesCompressor ∧ w = compressorDestName s := by
  intro w hw
  unfold compress_all at hw
  by_cases h : (listing.filter matchesCompressor).isEmpty
  · rw [if_pos h] at hw
    simp at hw
  · rw [if_neg h, compress_foldl_spec] at hw
    simp only [List.nil_append, List.mem_map, List.mem_filter] at hw
    obtain ⟨s, ⟨⟨hsl, hsm⟩, _⟩, rfl⟩ := hw
    exact ⟨s, List.mem_filter.mpr ⟨hsl, hsm⟩, rfl⟩

theorem convert_all_written (listing : List (List Char)) (envOf : List Char → FileEnv) :
    ∀ w ∈ (convert_all listing envOf).written,
      ∃ s, s ∈ listing.filter matchesConverter ∧ w = converterDestName s := by
  intro w hw
  unfold convert_all at hw
  by_cases h : (imageFilesOf listing).length + (pngFilesOf listing).length = 0
  · rw [if_pos h] at hw
    simp at hw
  · rw [if_neg h, convertImg_foldl_spec, convertPng_foldl_spec] at hw
    simp only [List.nil_append, List.mem_append, List.mem_map, List.mem_filter] at hw
    rcases hw with ⟨hmem, _⟩ | ⟨s, ⟨hs, _⟩, rfl⟩
    · obtain ⟨hconv, hpng⟩ := pngFilesOf_sub hmem
      refine ⟨w, hconv, ?_⟩
      unfold converterDestName
      rw [if_pos hpng]
    · obtain ⟨hconv, hnpng⟩ := imageFilesOf_sub hs
      refine ⟨s, hconv, ?_⟩
      unfold converterDestName
      rw [if_neg hnpng]

theorem compress_image_fail_logs (env : FileEnv) :
    (compress_image env).ok = false →
      ∃ e, LogEvent.errorFile e ∈ (compress_image env).logs := by
  obtain ⟨ib, dec, sv, ob⟩ := env
  cases ib with
  | none => exact fun _ => ⟨PyErr.statInputError, by simp [compress_image]⟩
  | some b =>
    cases dec with
    | none => exact fun _ => ⟨PyErr.decodeError, by simp [compress_image]⟩
    | some img =>
      cases sv with
      | false => exact fun _ => ⟨PyErr.saveError, by simp [compress_image]⟩
      | true =>
        cases ob with
        | none => exact fun _ => ⟨PyErr.statOutputError, by simp [compress_image]⟩
        | some n =>
          by_cases hb : b = 0
          · exact fun _ => ⟨PyErr.zeroDivisionError, by simp [compress_image, hb]⟩
          · intro hok
            simp [compress_image, hb] at hok

theorem convert_to_png_fail_logs (env : FileEnv) :
    (convert_to_png env).ok = false →
      ∃ e, LogEvent.errorFile e ∈ (convert_to_png env).logs := by
  obtain ⟨ib, dec, sv, ob⟩ := env
  cases ib with
  | none => exact fun _ => ⟨PyErr.statInputError, by simp [convert_to_png]⟩
  | some b =>
    cases dec with
    | none => exact fun _ => ⟨PyErr.decodeError, by simp [convert_to_png]⟩
    | some img =>
      cases sv with
      | false => exact fun _ => ⟨PyErr.saveError, by simp [convert_to_png]⟩
      | true =>
        cases ob with
        | none => exact fun _ => ⟨PyErr.statOutputError, by simp [convert_to_png]⟩
        | some n =>
          by_cases hb : b = 0
          · exact fun _ => ⟨PyErr.zeroDivisionError, by simp [convert_to_png, hb]⟩
          · intro hok
            by_cases hincr : 0 < mbOf n - mbOf b <;>
              simp [convert_to_png, hb, hincr] at hok

/-! ### Claims -/

/-- C1, counterexample: for an `LA`-mode image, `compress_image` creates the
white background and pastes, but the mask argument is `None`
(`img.mode == 'RGBA'` is false for `LA`), so the alpha channel is not used
as the compositing mask, contrary to the claim. -/
theorem la_paste_mask_is_none_cex :
    (compressNormalize ⟨"LA", 2, 2⟩).2 =
      some ⟨"RGB", 2, 2, (255, 255, 255), MaskArg.noMask⟩ ∧
    MaskArg.noMask ≠ MaskArg.lastChannel := by
  decide

/-- C1, amended: every `RGBA`, `LA` or `P` image is flattened onto a freshly
created opaque white `RGB` background of the image's pixel dimensions, but
the alpha channel is used as the compositing mask only when the image being
pasted is in `RGBA` mode — i.e. for original `RGBA` images and for `P`
images (expanded to `RGBA` first); an `LA` image is pasted with no mask, its
alpha channel ignored.  Modes other than these three pass through
unchanged. -/
theorem compress_flatten_policy (img : PILImage) :
    ((img.mode = "RGBA" ∨ img.mode = "LA" ∨ img.mode = "P") →
      (compressNormalize img).1 = ⟨"RGB", img.width, img.height⟩ ∧
      (compressNormalize img).2 =
        some ⟨"RGB", img.width, img.height, (255, 255, 255),
          if img.mode = "LA" then MaskArg.noMask else MaskArg.lastChannel⟩) ∧
    (¬(img.mode = "RGBA" ∨ img.mode = "LA" ∨ img.mode = "P") →
      compressNormalize img = (img, none)) := by
  constructor
  · rintro (h | h | h) <;> simp +decide [compressNormalize, h]
  · intro h
    push_neg at h
    obtain ⟨h1, h2, h3⟩ := h
    simp [compressNormalize, h1, h2, h3]

/-- C1, witness at a concrete `P`-mode image. -/
theorem compress_flatten_policy_witness :
    (compressNormalize ⟨"P", 4, 5⟩).1 = ⟨"RGB", 4, 5⟩ ∧
    (compressNormalize ⟨"P", 4, 5⟩).2 =
      some ⟨"RGB", 4, 5, (255, 255, 255), MaskArg.lastChannel⟩ := by
  have h := (compress_flatten_policy ⟨"P", 4, 5⟩).1 (by simp)
  obtain ⟨h1, h2⟩ := h
  refine ⟨h1, ?_⟩
  rw [h2]
  norm_num
  intro hx
  exact absurd hx (by decide)

/-- C4: the converter's pre-encode normalization converts `P` to `RGBA`,
converts `RGB`, `L` and `1` to `RGBA`, and passes every other mode through
unchanged. -/
theorem convert_mode_policy (img : PILImage) :
    ((img.mode = "P" ∨ img.mode = "RGB" ∨ img.mode = "L" ∨ img.mode = "1") →
      convertNormalize img = { img with mode := "RGBA" }) ∧
    (¬(img.mode = "P" ∨ img.mode = "RGB" ∨ img.mode = "L" ∨ img.mode = "1") →
      convertNormalize img = img) := by
  constructor
  · rintro (h | h | h | h) <;> simp +decide [convertNormalize, h]
  · intro h
    push_neg at h
    obtain ⟨h1, h2, h3, h4⟩ := h
    simp [convertNormalize, h1, h2, h3, h4]

/-- C4, witness at a concrete `L`-mode image. -/
theorem convert_mode_policy_witness :
    convertNormalize ⟨"L", 1, 2⟩ = ⟨"RGBA", 1, 2⟩ := by
  have h := (convert_mode_policy ⟨"L", 1, 2⟩).1 (by simp)
  exact h

/-- C9: a per-file `False` return does not mean the destination was not
written.  With a zero-byte original the percentage computation divides by
zero after a successful save, and with an unreadable output size the
post-save stat raises: in both cases, for both tools, the function returns
`False` while the destination file has already been written and remains. -/
theorem false_return_after_write :
    compress_image ⟨some 0, some ⟨"RGB", 3, 3⟩, true, some 50⟩ =
      ⟨false, true, [LogEvent.errorFile PyErr.zeroDivisionError]⟩ ∧
    compress_image ⟨some 5, some ⟨"RGB", 3, 3⟩, true, none⟩ =
      ⟨false, true, [LogEvent.errorFile PyErr.statOutputError]⟩ ∧
    convert_to_png ⟨some 0, some ⟨"RGB", 3, 3⟩, true, some 50⟩ =
      ⟨false, true, [LogEvent.errorFile PyErr.zeroDivisionError]⟩ ∧
    convert_to_png ⟨some 5, some ⟨"RGB", 3, 3⟩, true, none⟩ =
      ⟨false, true, [LogEvent.errorFile PyErr.statOutputError]⟩ := by
  refine ⟨rfl, rfl, rfl, rfl⟩

/-- C2, counterexample: a 2 MiB input converted to a 1 MiB PNG.  The run
succeeds and the logged percentage is `(abs(size_change)/original)*100 = 50`,
a positive number, while the claim's formula `(new-old)/old*100` gives
`-50`: on a size decrease the logged percentage is not negative. -/
theorem convert_pct_sign_cex :
    convert_to_png ⟨some 2097152, some ⟨"RGB", 8, 8⟩, true, some 1048576⟩ =
      ⟨true, true, [LogEvent.info, LogEvent.sizeDecreasePct 50]⟩ ∧
    (mbOf 1048576 - mbOf 2097152) / mbOf 2097152 * 100 = -50 ∧
    (50 : ℚ) ≠ -50 := by
  have hm1 : mbOf 1048576 = 1 := by norm_num [mbOf]
  have hm2 : mbOf 2097152 = 2 := by norm_num [mbOf]
  have hd : mbOf 1048576 - mbOf 2097152 = -1 := by norm_num [mbOf]
  refine ⟨?_, by rw [hd, hm2]; norm_num, by norm_num⟩
  simp only [convert_to_png, hm1, hm2]
  norm_num

/-- C2, amended: on success the converter logs the percentage magnitude
`abs(new-old)/old*100`; it equals `(new-old)/old*100` only on an increase,
and the logged percentage is never negative — the direction of the change
is carried by the chosen message (`Size increase` / `Size decrease`) and
the signed MB figure, not by the sign of the percentage. -/
theorem convert_logged_pct (b n : Nat) (img : PILImage) (hb : 0 < b) :
    (convert_to_png ⟨some b, some img, true, some n⟩).ok = true ∧
    loggedPct (convert_to_png ⟨some b, some img, true, some n⟩) =
      some (|mbOf n - mbOf b| / mbOf b * 100) ∧
    ∀ q, loggedPct (convert_to_png ⟨some b, some img, true, some n⟩) = some q →
      0 ≤ q := by
  have hb0 : b ≠ 0 := hb.ne'
  have hmb : 0 < mbOf b := div_pos (by exact_mod_cast hb) (by norm_num)
  have hmain : (convert_to_png ⟨some b, some img, true, some n⟩).ok = true ∧
      loggedPct (convert_to_png ⟨some b, some img, true, some n⟩) =
        some (|mbOf n - mbOf b| / mbOf b * 100) := by
    by_cases hincr : 0 < mbOf n - mbOf b
    · have habs : |mbOf n - mbOf b| = mbOf n - mbOf b := abs_of_pos hincr
      simp [convert_to_png, hb0, hincr, loggedPct, habs]
    · simp [convert_to_png, hb0, hincr, loggedPct]
  refine ⟨hmain.1, hmain.2, ?_⟩
  intro q hq
  rw [hmain.2] at hq
  obtain rfl : |mbOf n - mbOf b| / mbOf b * 100 = q := Option.some_inj.mp hq
  exact mul_nonneg (div_nonneg (abs_nonneg _) hmb.le) (by norm_num)

/-- C2, witness: the counterexample input, through the amended statement. -/
theorem convert_logged_pct_witness :
    (convert_to_png ⟨some 2097152, some ⟨"RGB", 8, 8⟩, true, some 1048576⟩).ok = true ∧
    loggedPct (convert_to_png ⟨some 2097152, some ⟨"RGB", 8, 8⟩, true, some 1048576⟩) =
      some 50 := by
  have h := convert_logged_pct 2097152 1048576 ⟨"RGB", 8, 8⟩ (by norm_num)
  refine ⟨h.1, ?_⟩
  have hm2 : mbOf 2097152 = 2 := by norm_num [mbOf]
  have hd : mbOf 1048576 - mbOf 2097152 = -1 := by norm_num [mbOf]
  rw [h.2.1, hd, hm2, abs_neg, abs_one]
  norm_num

/-- C5: for a converter batch with at least one matched file, the final
counters satisfy `successful + failed + skipped = totalMatchedFiles`, the
number of enumerated files whose extension is in the supported set. -/
theorem convert_counters_sum (listing : List (List Char)) (envOf : List Char → FileEnv)
    (h : listing.filter matchesConverter ≠ []) :
    (convert_all listing envOf).successful + (convert_all listing envOf).failed +
        (convert_all listing envOf).skipped =
      (listing.filter matchesConverter).length := by
  have hpart := png_image_partition listing
  have htot : (imageFilesOf listing).length + (pngFilesOf listing).length ≠ 0 := by
    intro h0
    apply h
    apply List.length_eq_zero.mp
    omega
  rw [convert_all_spec listing envOf htot]
  have h1 : ((pngFilesOf listing).filter fun f => (handle_png (envOf f)).ok).length +
      ((pngFilesOf listing).filter fun f => !(handle_png (envOf f)).ok).length =
      (pngFilesOf listing).length :=
    length_filter_add_not _ _
  have h2 : ((imageFilesOf listing).filter fun f => (convert_to_png (envOf f)).ok).length +
      ((imageFilesOf listing).filter fun f => !(convert_to_png (envOf f)).ok).length =
      (imageFilesOf listing).length :=
    length_filter_add_not _ _
  simp only []
  omega

/-- C5, witness: a three-file listing with two matched files. -/
theorem convert_counters_sum_witness :
    (convert_all ["a.jpg".data, "b.png".data, "c.txt".data]
          (fun _ => ⟨some 1048576, some ⟨"RGB", 2, 2⟩, true, some 1048576⟩)).successful +
        (convert_all ["a.jpg".data, "b.png".data, "c.txt".data]
          (fun _ => ⟨some 1048576, some ⟨"RGB", 2, 2⟩, true, some 1048576⟩)).failed +
        (convert_all ["a.jpg".data, "b.png".data, "c.txt".data]
          (fun _ => ⟨some 1048576, some ⟨"RGB", 2, 2⟩, true, some 1048576⟩)).skipped =
      ((["a.jpg".data, "b.png".data, "c.txt".data]).filter matchesConverter).length := by
  exact convert_counters_sum _ _ (by decide)

/-- C7: on every successful `compress_image` run the logged reduction is
exactly `(old - new) / old * 100`, and when the output is larger than the
input this value is negative (logged as such, not clamped to zero). -/
theorem compress_reduction_formula (b n : Nat) (img : PILImage) (hb : 0 < b) :
    (compress_image ⟨some b, some img, true, some n⟩).ok = true ∧
    loggedPct (compress_image ⟨some b, some img, true, some n⟩) =
      some ((mbOf b - mbOf n) / mbOf b * 100) ∧
    (b < n → (mbOf b - mbOf n) / mbOf b * 100 < 0) := by
  have hb0 : b ≠ 0 := hb.ne'
  have hmb : 0 < mbOf b := div_pos (by exact_mod_cast hb) (by norm_num)
  refine ⟨by simp [compress_image, hb0], by simp [compress_image, hb0, loggedPct], ?_⟩
  intro hbn
  have hlt : mbOf b < mbOf n := by
    unfold mbOf
    rw [div_lt_div_iff_of_pos_right (by norm_num)]
    exact_mod_cast hbn
  have hneg : mbOf b - mbOf n < 0 := by linarith
  exact mul_neg_of_neg_of_pos (div_neg_of_neg_of_pos hneg hmb) (by norm_num)

/-- C7, witness: a 1 MiB input whose JPEG output is 2 MiB; the logged
reduction is negative. -/
theorem compress_reduction_formula_witness :
    (compress_image ⟨some 1048576, some ⟨"RGB", 2, 2⟩, true, some 2097152⟩).ok = true ∧
    (mbOf 1048576 - mbOf 2097152) / mbOf 1048576 * 100 < 0 := by
  have h := compress_reduction_formula 1048576 2097152 ⟨"RGB", 2, 2⟩ (by norm_num)
  exact ⟨h.1, h.2.2 (by norm_num)⟩

/-- C8: when the source listing yields zero files with a supported
extension, both orchestrators log the warning and return at once: no
per-file operation runs, no destination file is written, the counters stay
zero, and no summary is emitted — the empty input is not an error. -/
theorem empty_listing_warns (listing : List (List Char)) (envOf : List Char → FileEnv) :
    (listing.filter matchesCompressor = [] →
      compress_all listing envOf = ⟨0, 0, 0, [], [], true, false⟩) ∧
    (listing.filter matchesConverter = [] →
      convert_all listing envOf = ⟨0, 0, 0, [], [], true, false⟩) := by
  constructor
  · intro h
    unfold compress_all
    rw [if_pos (by simp [List.isEmpty_iff, h])]
  · intro h
    have hp : pngFilesOf listing = [] := filter_and_eq_nil h
    have hi : imageFilesOf listing = [] := filter_and_eq_nil h
    unfold convert_all
    rw [if_pos (by simp [hp, hi])]

/-- C8, witness: a listing with a single unsupported file. -/
theorem empty_listing_warns_witness :
    compress_all ["notes.txt".data] (fun _ => ⟨none, none, false, none⟩) =
      ⟨0, 0, 0, [], [], true, false⟩ ∧
    convert_all ["notes.txt".data] (fun _ => ⟨none, none, false, none⟩) =
      ⟨0, 0, 0, [], [], true, false⟩ := by
  have h := empty_listing_warns ["notes.txt".data] (fun _ => ⟨none, none, false, none⟩)
  exact ⟨h.1 (by decide), h.2 (by decide)⟩

theorem compressorDestName_inj {f g : List Char} (hst : pyStem f ≠ pyStem g) :
    compressorDestName f ≠ compressorDestName g := by
  intro he
  unfold compressorDestName at he
  exact hst (List.append_inj' he rfl).1

theorem converterDestName_inj {f g : List Char} (hst : pyStem f ≠ pyStem g) :
    converterDestName f ≠ converterDestName g := by
  intro he
  unfold converterDestName at he
  by_cases hf : lowerStr (pySuffix f) = ".png".data <;>
    by_cases hg : lowerStr (pySuffix g) = ".png".data
  · rw [if_pos hf, if_pos hg] at he
    exact hst (by rw [he])
  · rw [if_pos hf, if_neg hg] at he
    have hsf : pySuffix f ≠ [] := by
      intro h0
      rw [h0] at hf
      exact absurd hf (by decide)
    have hlen : (pySuffix f).length = (".png".data).length := pySuffix_length_of_lower hf
    have hcat : pyStem f ++ pySuffix f = pyStem g ++ ".png".data := by
      rw [pyStem_append_pySuffix f hsf, he]
    exact hst (List.append_inj' hcat hlen).1
  · rw [if_neg hf, if_pos hg] at he
    have hsg : pySuffix g ≠ [] := by
      intro h0
      rw [h0] at hg
      exact absurd hg (by decide)
    have hlen : (".png".data).length = (pySuffix g).length :=
      (pySuffix_length_of_lower hg).symm
    have hcat : pyStem f ++ ".png".data = pyStem g ++ pySuffix g := by
      rw [pyStem_append_pySuffix g hsg, he]
    exact hst (List.append_inj' hcat hlen).1
  · rw [if_neg hf, if_neg hg] at he
    exact hst (List.append_inj' he rfl).1

/-- C3, counterexample: `a.jpg` and `a.png` are distinct files, both matched
by the compressor, yet both derive the destination name `a.jpg`; similarly
`b.jpg` and `b.png` for the converter both derive `b.png`.  Destination
paths of distinct matched source files are not always distinct. -/
theorem dest_collision_cex :
    matchesCompressor "a.jpg".data = true ∧
    matchesCompressor "a.png".data = true ∧
    "a.jpg".data ≠ "a.png".data ∧
    compressorDestName "a.jpg".data = compressorDestName "a.png".data ∧
    matchesConverter "b.jpg".data = true ∧
    matchesConverter "b.png".data = true ∧
    "b.jpg".data ≠ "b.png".data ∧
    converterDestName "b.jpg".data = converterDestName "b.png".data := by
  decide

/-- C3, amended: every destination file written by a batch run derives from
a file matched at scan time, with only the extension changed (`stem + .jpg`
for the compressor; the unchanged name for already-PNG files and
`stem + .png` otherwise for the converter); and the derived destination
paths of two matched source files are distinct whenever their stems are
distinct — files sharing a stem can collide on one destination path. -/
theorem dest_mapping_amended (f g : List Char) (listing : List (List Char))
    (envOf : List Char → FileEnv) :
    (matchesCompressor f = true → matchesCompressor g = true → pyStem f ≠ pyStem g →
      compressorDestName f ≠ compressorDestName g) ∧
    (matchesConverter f = true → matchesConverter g = true → pyStem f ≠ pyStem g →
      converterDestName f ≠ converterDestName g) ∧
    (∀ w ∈ (compress_all listing envOf).written,
      ∃ s, s ∈ listing.filter matchesCompressor ∧ w = compressorDestName s) ∧
    (∀ w ∈ (convert_all listing envOf).written,
      ∃ s, s ∈ listing.filter matchesConverter ∧ w = converterDestName s) :=
  ⟨fun _ _ => compressorDestName_inj, fun _ _ => converterDestName_inj,
    compress_all_written listing envOf, convert_all_written listing envOf⟩

/-- C3, witness at two matched files with distinct stems. -/
theorem dest_mapping_amended_witness :
    compressorDestName "a.jpg".data ≠ compressorDestName "b.png".data ∧
    converterDestName "a.jpg".data ≠ converterDestName "b.png".data := by
  have h := dest_mapping_amended "a.jpg".data "b.png".data []
    (fun _ => ⟨none, none, false, none⟩)
  exact ⟨h.1 (by decide) (by decide) (by decide),
    h.2.1 (by decide) (by decide) (by decide)⟩

/-- C6: every per-file failure is caught at the per-file boundary: a `False`
return always comes with a logged error, the functions are total (no
exception escapes to the caller), and the orchestrators process every
matched file and still emit the final summary whatever the per-file
outcomes are. -/
theorem per_file_error_containment (env : FileEnv) (listing : List (List Char))
    (envOf : List Char → FileEnv) :
    ((compress_image env).ok = false →
      ∃ e, LogEvent.errorFile e ∈ (compress_image env).logs) ∧
    ((convert_to_png env).ok = false →
      ∃ e, LogEvent.errorFile e ∈ (convert_to_png env).logs) ∧
    (listing.filter matchesCompressor ≠ [] →
      (compress_all listing envOf).processedInputs = listing.filter matchesCompressor ∧
      (compress_all listing envOf).summaryEmitted = true) ∧
    (listing.filter matchesConverter ≠ [] →
      (convert_all listing envOf).processedInputs =
        pngFilesOf listing ++ imageFilesOf listing ∧
      (convert_all listing envOf).summaryEmitted = true) := by
  refine ⟨compress_image_fail_logs env, convert_to_png_fail_logs env, ?_, ?_⟩
  · intro h
    rw [compress_all_spec listing envOf h]
    exact ⟨rfl, rfl⟩
  · intro h
    have hpart := png_image_partition listing
    have htot : (imageFilesOf listing).length + (pngFilesOf listing).length ≠ 0 := by
      intro h0
      apply h
      apply List.length_eq_zero.mp
      omega
    rw [convert_all_spec listing envOf htot]
    exact ⟨rfl, rfl⟩

/-- C6, witness: an input whose stat raises, in a one-file batch; the error
is logged, the result is `False`, and the batch still emits its summary. -/
theorem per_file_error_containment_witness :
    (∃ e, LogEvent.errorFile e ∈ (compress_image ⟨none, none, false, none⟩).logs) ∧
    (∃ e, LogEvent.errorFile e ∈ (convert_to_png ⟨none, none, false, none⟩).logs) ∧
    (compress_all ["a.jpg".data] (fun _ => ⟨none, none, false, none⟩)).summaryEmitted =
      true ∧
    (convert_all ["a.jpg".data] (fun _ => ⟨none, none, false, none⟩)).summaryEmitted =
      true := by
  have h := per_file_error_containment ⟨none, none, false, none⟩ ["a.jpg".data]
    (fun _ => ⟨none, none, false, none⟩)
  exact ⟨h.1 (by decide), h.2.1 (by decide), (h.2.2.1 (by decide)).2,
    (h.2.2.2 (by decide)).2⟩

/-- C10: enumeration matches by the lowercased path suffix — `A.JPG` is
matched by both tools, the match depends only on the lowercased suffix —
and a filename with no dot, or whose only dot is leading, has an empty
suffix and is never enumerated by either tool (not matched, not put in the
converter's PNG or conversion groups). -/
theorem enumeration_by_lower_suffix (listing : List (List Char)) (name na nb : List Char) :
    (matchesConverter "A.JPG".data = true ∧ matchesCompressor "A.JPG".data = true) ∧
    (lowerStr (pySuffix na) = lowerStr (pySuffix nb) →
      matchesConverter na = matchesConverter nb ∧
      matchesCompressor na = matchesCompressor nb) ∧
    ((∀ c ∈ name.drop 1, c ≠ '.') →
      pySuffix name = [] ∧ matchesConverter name = false ∧
      matchesCompressor name = false ∧
      name ∉ listing.filter matchesConverter ∧
      name ∉ listing.filter matchesCompressor ∧
      name ∉ pngFilesOf listing ∧ name ∉ imageFilesOf listing) := by
  refine ⟨by decide, ?_, ?_⟩
  · intro h
    constructor
    · unfold matchesConverter
      rw [h]
    · unfold matchesCompressor
      rw [h]
  · intro h
    have hsuf : pySuffix name = [] := pySuffix_eq_nil_of_leading name h
    have hmc : matchesConverter name = false := by
      unfold matchesConverter
      rw [hsuf]
      rfl
    have hmk : matchesCompressor name = false := by
      unfold matchesCompressor
      rw [hsuf]
      rfl
    refine ⟨hsuf, hmc, hmk, ?_, ?_, ?_, ?_⟩
    · intro hmem
      have hx := (List.mem_filter.mp hmem).2
      rw [hmc] at hx
      exact absurd hx (by decide)
    · intro hmem
      have hx := (List.mem_filter.mp hmem).2
      rw [hmk] at hx
      exact absurd hx (by decide)
    · intro hmem
      have hx := (List.mem_filter.mp (pngFilesOf_sub hmem).1).2
      rw [hmc] at hx
      exact absurd hx (by decide)
    · intro hmem
      have hx := (List.mem_filter.mp (imageFilesOf_sub hmem).1).2
      rw [hmc] at hx
      exact absurd hx (by decide)

/-- C10, witness: `A.JPG` vs `a.jpg`, and the dotfile `.png` in a concrete
listing. -/
theorem enumeration_by_lower_suffix_witness :
    matchesConverter "A.JPG".data = matchesConverter "a.jpg".data ∧
    pySuffix ".png".data = [] ∧
    matchesCompressor ".png".data = false ∧
    ".png".data ∉ ([".png".data, "x.txt".data].filter matchesCompressor) := by
  have h := enumeration_by_lower_suffix [".png".data, "x.txt".data] ".png".data
    "A.JPG".data "a.jpg".data
  have h2 := h.2.1 (by decide)
  have h3 := h.2.2 (by decide)
  exact ⟨h2.1, h3.1, h3.2.2.1, h3.2.2.2.2.1⟩

end ImageTools
